import Mathlib

/-!
Shallow embedding of the group-membership lifecycle orchestrator
(`src/core/addTask.ts`, `src/core/removeTask.ts`, `src/utils/waParticipants.ts`,
`src/utils/phoneToJid.ts`).

The repository packs two historical snapshots of `addTask.ts` into one file;
where they differ the embedding carries both, suffixed `V1` (first snapshot)
and `V2` (second snapshot).

Modelling conventions:
* A rejected promise / thrown JS error is `Except.error (e : JsErr)`.
* External-collaborator calls (socket, database) are oracles supplied in an
  environment record; the value of the oracle is the settled outcome of the
  (timeout/retry-wrapped) call.
* Side-effecting calls are additionally recorded as entries of a trace
  (`List Ev`), emitted at the moment the source issues the call.
* JS truthiness on optional strings: `null`/`undefined`/`""` are falsy.
-/

/-- A JavaScript error value.  `timeout ms` is the error constructed by
`withTimeout` (message `Operation timed out after <ms>ms`); `mk` carries the
message of every other `new Error(...)`. -/
inductive JsErr where
  | mk (msg : String)
  | timeout (ms : Nat)
deriving Repr, DecidableEq

/-- Digits-only projection: TS `s.replace(/\D/g, "")`. -/
def digitsOf (s : String) : String :=
  String.mk (s.toList.filter Char.isDigit)

/-- `normalizeDigits` from `addTask.ts` (both snapshots): `null`
for a falsy input or when no digit remains. -/
def normalizeDigits (phone : String) : Option String :=
  if phone = "" then none
  else
    let d := digitsOf phone
    if d = "" then none else some d

/-- JS `s.slice(-8)`: the last 8 characters (the whole string when shorter). -/
def last8 (s : String) : String :=
  String.mk (s.toList.drop (s.toList.length - 8))

/-- `phoneToUserJid` from `phoneToJid.ts`; throws on an input without digits. -/
def phoneToUserJid (input : String) : Except JsErr String :=
  let digits := digitsOf input
  if digits = "" then .error (.mk ("Invalid number: \"" ++ input ++ "\""))
  else .ok (digits ++ "@s.whatsapp.net")

/-- `asGroupJid` from `phoneToJid.ts`; throws on an empty group id. -/
def asGroupJid (groupId : String) : Except JsErr String :=
  if groupId = "" then .error (.mk "Empty groupId")
  else if "@g.us".toList.isSuffixOf groupId.toList then .ok groupId
  else .ok (groupId ++ "@g.us")

/-- A JS runtime value in a `status` field: a number, a string, or anything
else (modelled as `undef`), mirroring the `unknown` input of `asStatusCode`. -/
inductive JsVal where
  | num (n : Int)
  | str (s : String)
  | undef
deriving Repr, DecidableEq

/-- JS `String.prototype.trim`, on the character list. -/
def jsTrim (s : String) : String :=
  String.mk (((s.toList.dropWhile Char.isWhitespace).reverse.dropWhile Char.isWhitespace).reverse)

/-- Model of JS `Number(s)` restricted to optionally signed decimal integer
strings (the only shapes a participant-update status takes); every other
string is NaN, i.e. `none`. -/
def jsNumberInt? (s : String) : Option Int :=
  let t := jsTrim s
  match t.toList with
  | [] => none
  | '-' :: ds =>
      if ds ≠ [] ∧ ds.all Char.isDigit then
        some (-(ds.foldl (fun acc c => acc * 10 + (c.toNat - '0'.toNat)) 0 : Nat))
      else none
  | ds =>
      if ds.all Char.isDigit then
        some ((ds.foldl (fun acc c => acc * 10 + (c.toNat - '0'.toNat)) 0 : Nat))
      else none

/-- `asStatusCode` from `addTask.ts` / `removeTask.ts`: a number is returned
as-is, a non-blank numeric string is parsed, everything else is `null`. -/
def asStatusCode (v : JsVal) : Option Int :=
  match v with
  | .num n => some n
  | .str s => if jsTrim s ≠ "" then jsNumberInt? s else none
  | .undef => none

/-- JS truthiness of an optional string: `null`/`undefined`/`""` are falsy. -/
def jsTruthy (o : Option String) : Bool :=
  match o with
  | some s => s ≠ ""
  | none => false

-- ---------------------------------------------------------------------------
-- withRetry (addTask.ts snapshot 1, lines 88-108)
-- ---------------------------------------------------------------------------

/-- One iteration state of `withRetry`'s `for` loop, starting at `attempt`.
`f i` is the settled outcome of the `i`-th invocation of the wrapped
operation.  Returns the overall outcome together with the number of calls
made.  On exhaustion the error of the last attempt (`lastErr`) is rethrown. -/
def withRetryAux (f : Nat → Except JsErr α) (maxRetries : Nat) (attempt : Nat) :
    Except JsErr α × Nat :=
  match f attempt with
  | .ok v => (.ok v, attempt + 1)
  | .error e =>
      if h : attempt < maxRetries then
        withRetryAux f maxRetries (attempt + 1)
      else
        (.error e, attempt + 1)
termination_by maxRetries + 1 - attempt
decreasing_by omega

/-- `withRetry` from `addTask.ts` snapshot 1: at most `maxRetries + 1` calls,
retrying only when the operation throws. -/
def withRetry (f : Nat → Except JsErr α) (maxRetries : Nat) : Except JsErr α × Nat :=
  withRetryAux f maxRetries 0

-- ---------------------------------------------------------------------------
-- withTimeout (addTask.ts lines 75-86 / removeTask.ts lines 50-61)
-- ---------------------------------------------------------------------------

/-- Denotational model of a promise: `none` never settles; `some (t, r)`
settles at time `t` with outcome `r` (fulfilled or rejected). -/
def JsPromise (α : Type) : Type := Option (Nat × Except JsErr α)

/-- `Promise.race([p, timeout])` where the timer rejects at time `ms` with the
timeout error: the operation wins exactly when it settles strictly earlier. -/
def promiseRace (op : JsPromise α) (ms : Nat) : Except JsErr α :=
  match op with
  | none => .error (.timeout ms)
  | some (t, r) => if t < ms then r else .error (.timeout ms)

/-- `withTimeout` from `addTask.ts`/`removeTask.ts`: the promise executor runs
synchronously, so the timer handle `t` is always set before the race; the
`finally` block clears the timer whenever `t` is set.  Output: settled
outcome of the race, and whether the timer was cleared. -/
def withTimeout (op : JsPromise α) (ms : Nat) : Except JsErr α × Bool :=
  let t : Option Nat := some ms
  let res := promiseRace op ms
  match t with
  | some _ => (res, true)
  | none => (res, false)

-- ---------------------------------------------------------------------------
-- Participant / roster model (waParticipants.ts, snapshot with altId support)
-- ---------------------------------------------------------------------------

/-- A roster participant as surfaced by the collaborator: several optional
identity fields plus the admin role (`"admin"`, `"superadmin"` or null). -/
structure GroupParticipant where
  id : String
  phoneNumber : Option String := none
  jid : Option String := none
  lid : Option String := none
  user : Option String := none
  admin : Option String := none
deriving Repr, DecidableEq

/-- Group metadata snapshot: subject plus participant list. -/
structure GroupMetadata where
  subject : Option String := none
  participants : List GroupParticipant := []
deriving Repr, DecidableEq

/-- `extractDigits` from `waParticipants.ts`: local part before `@`, before a
device-index `:`, digits only; `null` when falsy or no digit remains. -/
def extractDigits (idLike : Option String) : Option String :=
  match idLike with
  | none => none
  | some s =>
      if s = "" then none
      else
        let beforeAt := s.toList.takeWhile (· ≠ '@')
        let beforeColon := beforeAt.takeWhile (· ≠ ':')
        let ds := beforeColon.filter Char.isDigit
        if ds.isEmpty then none else some (String.mk ds)

/-- `collectCandidateDigits`: digit keys of all identity fields of a
participant (the `Set` is modelled as a list; only membership is used). -/
def collectCandidateDigits (p : GroupParticipant) : List String :=
  [p.phoneNumber, some p.id, p.jid, p.lid, p.user].filterMap extractDigits

/-- `buildTargetDigits`: digit keys of the target id and the optional alt id. -/
def buildTargetDigits (userIdLike : Option String) (altId : Option String) : List String :=
  [userIdLike, altId].filterMap extractDigits

/-- `findParticipant` from `waParticipants.ts`: first participant whose
candidate key set intersects the target key set. -/
def findParticipant (meta : GroupMetadata) (userIdLike : Option String)
    (altId : Option String := none) : Option GroupParticipant :=
  let targets := buildTargetDigits userIdLike altId
  if targets.isEmpty then none
  else meta.participants.find? (fun p => targets.any (fun t => (collectCandidateDigits p).contains t))

/-- `isParticipantAdmin` from `waParticipants.ts`: found participant's role is
exactly `"admin"` or `"superadmin"`. -/
def isParticipantAdmin (meta : GroupMetadata) (userIdLike : Option String)
    (altId : Option String := none) : Bool :=
  match findParticipant meta userIdLike altId with
  | some p =>
      match p.admin with
      | some r => r = "admin" || r = "superadmin"
      | none => false
  | none => false

-- ---------------------------------------------------------------------------
-- Trace events and shared result types
-- ---------------------------------------------------------------------------

/-- Result of one phone-against-one-group attempt (`addTaskTypes.ts`). -/
structure AddAttemptResult where
  added : Bool
  isInviteV4Sent : Bool
  alreadyInGroup : Bool
deriving Repr, DecidableEq

/-- Aggregate per-WorkItem result (`addTaskTypes.ts`). -/
structure AddProcessResult where
  added : Bool
  inviteSent : Bool
  alreadyInGroup : Bool
  processedPhones : Nat
  totalPhones : Nat
deriving Repr, DecidableEq

/-- `baseResult` from `addTask.ts`. -/
def baseResult (processed total : Nat) : AddProcessResult :=
  ⟨false, false, false, processed, total⟩

/-- A phone number row for a registration (`addTaskTypes.ts`); the optional
`is_legal_rep` flag defaults to `false` (JS `undefined` is falsy). -/
structure MemberPhone where
  phone : String
  is_legal_rep : Bool := false
deriving Repr, DecidableEq

/-- An Add work item (`redisTypes.ts`). -/
structure AddQueueItem where
  request_id : Int
  registration_id : String
  group_id : String
  group_type : String
deriving Repr, DecidableEq

/-- The bot identity (`addTaskTypes.ts`). -/
structure Worker where
  id : Int
  phone : String
deriving Repr, DecidableEq

/-- A row of the `whatsapp_authorization` table as returned by
`getWhatsappAuthorization` (only the field the flow reads). -/
structure AuthRecord where
  phone_number : String
deriving Repr, DecidableEq

/-- Trace of externally visible calls, emitted when the source issues them.
`attemptOutcome` is an instrumentation marker recording the value of the
`attempt` binding (the `AddAttemptResult` the inner call settled with). -/
inductive Ev where
  | fetchMeta (jid : String)
  | updateCall (jid : String) (userJid : String) (action : String)
  | inviteAttempt (userJid : String)
  | authLookup (key : String) (workerId : Int)
  | addCall (phone : String)
  | attemptOutcome (phone : String) (r : AddAttemptResult)
  | recordEntry (registrationId : String) (phone : String) (groupJid : String)
  | notifyFailure (requestId : Int)
  | registerFulfilled (requestId : Int)
  | registerAttempt (requestId : Int)
deriving Repr, DecidableEq

/-- True for a participants-update call event (of any action). -/
def isUpdateCallEv : Ev → Bool
  | .updateCall _ _ _ => true
  | _ => false

/-- True for a roster fetch of the given group jid. -/
def isFetchMetaEv (jid : String) : Ev → Bool
  | .fetchMeta j => j = jid
  | _ => false

/-- True for an authorization lookup with the given last-8 key. -/
def isAuthLookupEv (key : String) : Ev → Bool
  | .authLookup k _ => k = key
  | _ => false

/-- True for an invocation of `addMemberToGroup` on the given phone. -/
def isAddCallEv (phone : String) : Ev → Bool
  | .addCall p => p = phone
  | _ => false

/-- True for an invocation of `sendGroupInviteMessage`. -/
def isInviteAttemptEv : Ev → Bool
  | .inviteAttempt _ => true
  | _ => false

/-- True for a per-phone outcome marker carrying a successful outcome
(`added`, `invited` or `already_member`). -/
def isSuccessOutcomeEv : Ev → Bool
  | .attemptOutcome _ r => r.added || r.isInviteV4Sent || r.alreadyInGroup
  | _ => false

/-- True for a membership-record write. -/
def isRecordEntryEv : Ev → Bool
  | .recordEntry _ _ _ => true
  | _ => false

-- ---------------------------------------------------------------------------
-- Remove flow (removeTask.ts)
-- ---------------------------------------------------------------------------

/-- Result type of the remove flow (`removeTask.ts`); `removalType` is the
string `"Community"`/`"Group"` or null. -/
structure RemovalAttemptResult where
  removed : Bool
  removalType : Option String
  groupName : Option String
  errorReason : Option String
deriving Repr, DecidableEq

/-- The value `groupParticipantsUpdate` settles with: an array of per-target
statuses, or something that is not an array (some versions return void). -/
inductive UpdateResp where
  | arr (l : List JsVal)
  | nonArr
deriving Repr, DecidableEq

/-- Oracle outcomes of the external calls one `removeMemberFromGroup` run can
issue.  Each field is the settled value of the corresponding
timeout-wrapped call. -/
structure RemoveEnv where
  communityMeta : Except JsErr (Option GroupMetadata)
  groupMeta : Except JsErr (Option GroupMetadata)
  commUpdate : Except JsErr UpdateResp
  groupUpdate : Except JsErr UpdateResp

/-- `tryParticipantsUpdate` from `removeTask.ts`: true on status 200/207 of
the first array entry, true when the response is not a non-empty array,
false when the call throws. -/
def tryParticipantsUpdate (resp : Except JsErr UpdateResp) : Bool :=
  match resp with
  | .error _ => false
  | .ok (.arr (x :: _)) =>
      asStatusCode x = some 200 || asStatusCode x = some 207
  | .ok (.arr []) => true
  | .ok .nonArr => true

/-- JS `a ?? b` for the group-name fallback (`community.subject ?? jid`). -/
def subjectOr (subject : Option String) (jid : String) : String :=
  subject.getD jid

/-- The community branch of `removeMemberFromGroup` (lines 142-181): every
path returns, none falls through to the group.  Produces the thrown-or-
returned result and the calls issued. -/
def removeCommunityStep (env : RemoveEnv) (phone : String) (userJid : String)
    (communityId : String) : Except JsErr RemovalAttemptResult × List Ev :=
  match asGroupJid communityId with
  | .error e => (.error e, [])
  | .ok communityJid =>
      match env.communityMeta with
      | .error e => (.error e, [Ev.fetchMeta communityJid])
      | .ok none =>
          (.ok ⟨false, none, none,
              some ("Comunidade " ++ communityId ++ " não encontrada.")⟩,
           [Ev.fetchMeta communityJid])
      | .ok (some community) =>
          let gname := subjectOr community.subject communityJid
          match findParticipant community (some userJid) with
          | none =>
              (.ok ⟨false, none, some gname,
                  some ("Participante " ++ phone ++ " não encontrado na comunidade "
                    ++ gname ++ " (" ++ communityId ++ ").")⟩,
               [Ev.fetchMeta communityJid])
          | some participant =>
              if jsTruthy participant.admin then
                (.ok ⟨false, none, some gname,
                    some ("Participante " ++ phone
                      ++ " é admin na comunidade; não é possível remover.")⟩,
                 [Ev.fetchMeta communityJid])
              else
                if tryParticipantsUpdate env.commUpdate then
                  (.ok ⟨true, some "Community", some gname, none⟩,
                   [Ev.fetchMeta communityJid, Ev.updateCall communityJid userJid "remove"])
                else
                  (.ok ⟨false, none, some gname,
                      some "Falha na operação de remoção na comunidade (participantsUpdate)."⟩,
                   [Ev.fetchMeta communityJid, Ev.updateCall communityJid userJid "remove"])

/-- The group branch of `removeMemberFromGroup` (lines 183-215). -/
def removeGroupStep (env : RemoveEnv) (phone : String) (userJid : String)
    (groupId : String) : Except JsErr RemovalAttemptResult × List Ev :=
  match asGroupJid groupId with
  | .error e => (.error e, [])
  | .ok groupJid =>
      match env.groupMeta with
      | .error e => (.error e, [Ev.fetchMeta groupJid])
      | .ok none =>
          (.ok ⟨false, none, none, some ("Grupo " ++ groupId ++ " não encontrado.")⟩,
           [Ev.fetchMeta groupJid])
      | .ok (some group) =>
          let gname := subjectOr group.subject groupJid
          match findParticipant group (some userJid) with
          | none =>
              (.ok ⟨false, none, some gname,
                  some ("Participante " ++ phone ++ " não encontrado no grupo " ++ gname ++ ".")⟩,
               [Ev.fetchMeta groupJid])
          | some participant =>
              if jsTruthy participant.admin then
                (.ok ⟨false, none, some gname,
                    some ("Participante " ++ phone
                      ++ " é admin no grupo; não é possível remover.")⟩,
                 [Ev.fetchMeta groupJid])
              else
                if tryParticipantsUpdate env.groupUpdate then
                  (.ok ⟨true, some "Group", some gname, none⟩,
                   [Ev.fetchMeta groupJid, Ev.updateCall groupJid userJid "remove"])
                else
                  (.ok ⟨false, none, some gname,
                      some "Falha na operação de remoção no grupo (participantsUpdate)."⟩,
                   [Ev.fetchMeta groupJid, Ev.updateCall groupJid userJid "remove"])

/-- Message of a caught error: `(error as Error)?.stack || String(error)`
(the stack is abstracted to the message). -/
def jsErrMsg : JsErr → String
  | .mk m => m
  | .timeout ms => "Operation timed out after " ++ toString ms ++ "ms"

/-- `removeMemberFromGroup` from `removeTask.ts` lines 133-221: community
branch when `communityId` is truthy, otherwise group branch; the outer
`catch` converts any error thrown inside the `try` into a non-removed
result.  Only `phoneToUserJid` (line 139, before the `try`) can propagate. -/
def removeMemberFromGroup (env : RemoveEnv) (phone : String) (groupId : String)
    (communityId : Option String) : Except JsErr (RemovalAttemptResult × List Ev) :=
  match phoneToUserJid phone with
  | .error e => .error e
  | .ok userJid =>
      let body :=
        if jsTruthy communityId then
          removeCommunityStep env phone userJid (communityId.getD "")
        else
          removeGroupStep env phone userJid groupId
      match body with
      | (.ok r, evs) => .ok (r, evs)
      | (.error e, evs) =>
          .ok (⟨false, none, none, some (jsErrMsg e)⟩, evs)

-- ---------------------------------------------------------------------------
-- addMemberToGroup and the invite fallback (addTask.ts, both snapshots)
-- ---------------------------------------------------------------------------

/-- Oracle outcomes of the calls `sendGroupInviteMessage` can issue:
`groupInviteCode` and `sendMessage` of the native-invite attempt (`code1`,
`send1`) and of the plain-text-link fallback (`code2`, `send2`). -/
structure InviteEnv where
  code1 : Except JsErr String
  send1 : Except JsErr Unit
  code2 : Except JsErr String
  send2 : Except JsErr Unit

/-- The plain-text-link fallback inside `sendGroupInviteMessage`'s `catch`:
false when the code call throws, when the code is falsy, or when the text
send throws. -/
def inviteLinkFallback (env : InviteEnv) : Bool :=
  match env.code2 with
  | .error _ => false
  | .ok c =>
      if c = "" then false
      else
        match env.send2 with
        | .ok _ => true
        | .error _ => false

/-- `sendGroupInviteMessage` from `addTask.ts` (both snapshots): native invite
first; a falsy invite code returns false directly; a thrown code fetch or
message send falls back to the plain-text link.  Total: every path is
caught, the function never rejects. -/
def sendGroupInviteMessage (env : InviteEnv) : Bool :=
  match env.code1 with
  | .error _ => inviteLinkFallback env
  | .ok c =>
      if c = "" then false
      else
        match env.send1 with
        | .ok _ => true
        | .error _ => inviteLinkFallback env

/-- Oracle outcomes for one `addMemberToGroup` run.  `update` is the settled
outcome of the (timeout/retry-wrapped) `groupParticipantsUpdate` call as a
status array; `fetchMetaA`/`fetchMetaB` are the `safeGroupMetadata` calls
of the `try` and of the `catch` (used only when no `meta` is passed in). -/
structure AMGEnv where
  fetchMetaA : Except JsErr GroupMetadata
  update : Except JsErr (List JsVal)
  fetchMetaB : Except JsErr GroupMetadata
  invite : InviteEnv

/-- Status of the first entry of the update response: `asStatusCode(resp?.[0]?.status)`. -/
def respStatus (resp : List JsVal) : Option Int :=
  match resp.head? with
  | some v => asStatusCode v
  | none => none

/-- The `try` block of `addMemberToGroup` (snapshot 1 lines 241-269,
snapshot 2 lines 594-621), as outcome plus calls issued: resolve metadata,
issue the update call, map status 200/409, otherwise attempt the invite
fallback once and notify on failure. -/
def addTryBody (env : AMGEnv) (userJid groupJid : String) (requestId : Int)
    (meta : Option GroupMetadata) : Except JsErr AddAttemptResult × List Ev :=
  match (match meta with | some m => Except.ok m | none => env.fetchMetaA) with
  | .error e => (.error e, [])
  | .ok _metadata =>
      match env.update with
      | .error e => (.error e, [Ev.updateCall groupJid userJid "add"])
      | .ok resp =>
          let evs0 := [Ev.updateCall groupJid userJid "add"]
          let status := respStatus resp
          if status = some 200 then
            (.ok ⟨true, false, false⟩, evs0)
          else if status = some 409 then
            (.ok ⟨false, false, true⟩, evs0)
          else
            let invited := sendGroupInviteMessage env.invite
            let evs1 := evs0 ++ [Ev.inviteAttempt userJid]
            if invited then (.ok ⟨false, true, false⟩, evs1)
            else (.ok ⟨false, false, false⟩, evs1 ++ [Ev.notifyFailure requestId])

/-- The `catch` block of `addMemberToGroup`: resolve metadata again (its
error is swallowed by the inner `catch`), attempt the invite fallback,
notify and return the all-false result when it fails. -/
def addCatchBody (env : AMGEnv) (userJid : String) (requestId : Int)
    (meta : Option GroupMetadata) (evs : List Ev) : AddAttemptResult × List Ev :=
  match (match meta with | some m => Except.ok m | none => env.fetchMetaB) with
  | .ok _m =>
      let invited := sendGroupInviteMessage env.invite
      let evs2 := evs ++ [Ev.inviteAttempt userJid]
      if invited then (⟨false, true, false⟩, evs2)
      else (⟨false, false, false⟩, evs2 ++ [Ev.notifyFailure requestId])
  | .error _ =>
      (⟨false, false, false⟩, evs ++ [Ev.notifyFailure requestId])

/-- `addMemberToGroup` from `addTask.ts` (snapshot 1 lines 233-286, snapshot 2
lines 586-641; they differ only in the retry wrapper around the update
call, which the `update` oracle absorbs).  `phoneToUserJid` runs before the
`try` and is the only statement whose error propagates. -/
def addMemberToGroup (env : AMGEnv) (phone groupJid : String) (requestId : Int)
    (meta : Option GroupMetadata) : Except JsErr (AddAttemptResult × List Ev) :=
  match phoneToUserJid phone with
  | .error e => .error e
  | .ok userJid =>
      match addTryBody env userJid groupJid requestId meta with
      | (.ok r, evs) => .ok (r, evs)
      | (.error _, evs) => .ok (addCatchBody env userJid requestId meta evs)

-- ---------------------------------------------------------------------------
-- processAddQueue (both snapshots)
-- ---------------------------------------------------------------------------

/-- Oracle outcomes for one `processAddQueue` run: the roster fetch, the bot's
own identities, the phone list of the registration, the authorization
lookup, and the environment of the inner `addMemberToGroup` call keyed by
the authorized phone number. -/
structure AddFlowEnv where
  meta : Except JsErr GroupMetadata
  selfId : Option String
  selfAlt : Option String
  memberPhones : List MemberPhone
  auth : String → Int → Option AuthRecord
  amg : String → AMGEnv

/-- `checkIfSelfIsAdmin` from snapshot 1 (lines 340-346): bare id before the
device separator, rebuilt as a phone-style jid, matched against `p.id` by
string equality; admin when the `admin` field is truthy. -/
def checkIfSelfIsAdminV1 (selfId : Option String) (meta : GroupMetadata) : Bool :=
  match selfId with
  | none => false
  | some sid =>
      let meBare := String.mk (sid.toList.takeWhile (· ≠ ':'))
      if meBare = "" then false
      else
        let me := meBare ++ "@s.whatsapp.net"
        match meta.participants.find? (fun p => p.id = me) with
        | some self => jsTruthy self.admin
        | none => false

/-- `checkIfSelfIsAdmin` from snapshot 2 (lines 695-701): numeric-identity
matching via `isParticipantAdmin`, with the account phone number as
alternate id. -/
def checkIfSelfIsAdminV2 (selfId selfAlt : Option String) (meta : GroupMetadata) : Bool :=
  if !jsTruthy selfId && !jsTruthy selfAlt then false
  else isParticipantAdmin meta selfId selfAlt

/-- The last-8 key a member phone contributes to the dedup filter. -/
def phoneKey (m : MemberPhone) : Option String :=
  (normalizeDigits m.phone).map last8

/-- The dedup filter of snapshot 1 (lines 148-156) with its `seen` set made
explicit: drop entries without digits, keep the first entry of each
normalized last-8 key. -/
def dedupByLast8Aux (seen : List String) : List MemberPhone → List MemberPhone
  | [] => []
  | m :: rest =>
      match phoneKey m with
      | none => dedupByLast8Aux seen rest
      | some k =>
          if k ∈ seen then dedupByLast8Aux seen rest
          else m :: dedupByLast8Aux (k :: seen) rest

/-- `uniquePhones` of snapshot 1: the deduplicated phone list. -/
def dedupByLast8 (phones : List MemberPhone) : List MemberPhone :=
  dedupByLast8Aux [] phones

/-- Loop state of snapshot 1's per-phone loop: the aggregate result and the
`anyAuthorized` flag. -/
structure LoopStateV1 where
  results : AddProcessResult
  anyAuthorized : Bool
deriving Repr, DecidableEq

/-- Per-phone loop of snapshot 1 (lines 168-205): RJB filter, normalization,
authorization lookup, inner `addMemberToGroup` call; on any successful
outcome a membership record is written, the matching flags are set and
`processedPhones` is incremented. -/
def addLoopV1 (env : AddFlowEnv) (item : AddQueueItem) (groupJid : String)
    (meta : GroupMetadata) (workerId : Int) :
    LoopStateV1 → List MemberPhone → Except JsErr (LoopStateV1 × List Ev)
  | st, [] => .ok (st, [])
  | st, phone :: rest =>
      if item.group_type = "RJB" && !phone.is_legal_rep then
        addLoopV1 env item groupJid meta workerId st rest
      else
        match normalizeDigits phone.phone with
        | none => addLoopV1 env item groupJid meta workerId st rest
        | some normalized =>
            let authKey := last8 normalized
            match env.auth authKey workerId with
            | none =>
                match addLoopV1 env item groupJid meta workerId st rest with
                | .error e => .error e
                | .ok (st', evs) => .ok (st', Ev.authLookup authKey workerId :: evs)
            | some authorized =>
                if authorized.phone_number = "" then
                  match addLoopV1 env item groupJid meta workerId st rest with
                  | .error e => .error e
                  | .ok (st', evs) => .ok (st', Ev.authLookup authKey workerId :: evs)
                else
                  let aphone := authorized.phone_number
                  let st1 : LoopStateV1 := { st with anyAuthorized := true }
                  match addMemberToGroup (env.amg aphone) aphone groupJid item.request_id (some meta) with
                  | .error e => .error e
                  | .ok (attempt, innerEvs) =>
                      let evsHere := Ev.authLookup authKey workerId :: Ev.addCall aphone ::
                        innerEvs ++ [Ev.attemptOutcome aphone attempt]
                      if attempt.added || attempt.isInviteV4Sent || attempt.alreadyInGroup then
                        let r := st1.results
                        let r1 := { r with
                          added := r.added || attempt.added,
                          inviteSent := r.inviteSent || attempt.isInviteV4Sent,
                          alreadyInGroup := r.alreadyInGroup || attempt.alreadyInGroup,
                          processedPhones := r.processedPhones + 1 }
                        let st2 := { st1 with results := r1 }
                        match addLoopV1 env item groupJid meta workerId st2 rest with
                        | .error e => .error e
                        | .ok (st', evs) =>
                            .ok (st', evsHere
                              ++ [Ev.recordEntry item.registration_id normalized groupJid] ++ evs)
                      else
                        match addLoopV1 env item groupJid meta workerId st1 rest with
                        | .error e => .error e
                        | .ok (st', evs) => .ok (st', evsHere ++ evs)

/-- `processAddQueue` from snapshot 1 (lines 118-227): admin gate and phone
gate notify only (no attempt registration), dedup before the loop,
`anyAuthorized` notification, finalization on the three outcome flags. -/
def processAddQueueV1 (env : AddFlowEnv) (worker : Worker) (item : AddQueueItem) :
    Except JsErr (AddProcessResult × List Ev) :=
  match asGroupJid item.group_id with
  | .error e => .error e
  | .ok groupJid =>
      match env.meta with
      | .error e => .error e
      | .ok meta =>
          if !checkIfSelfIsAdminV1 env.selfId meta then
            .ok (baseResult 0 0, [Ev.notifyFailure item.request_id])
          else if env.memberPhones.isEmpty then
            .ok (baseResult 0 0, [Ev.notifyFailure item.request_id])
          else
            let uniquePhones := dedupByLast8 env.memberPhones
            let st0 : LoopStateV1 :=
              ⟨⟨false, false, false, 0, uniquePhones.length⟩, false⟩
            match addLoopV1 env item groupJid meta worker.id st0 uniquePhones with
            | .error e => .error e
            | .ok (st, evs) =>
                let evs1 := if !st.anyAuthorized then evs ++ [Ev.notifyFailure item.request_id] else evs
                if st.results.added || st.results.inviteSent || st.results.alreadyInGroup then
                  .ok (st.results, evs1 ++ [Ev.registerFulfilled item.request_id])
                else
                  .ok (st.results, evs1 ++ [Ev.registerAttempt item.request_id])

/-- Loop state of snapshot 2's per-phone loop: the aggregate result and the
list of unauthorized numbers collected for diagnostics. -/
structure LoopStateV2 where
  results : AddProcessResult
  notAuthorizedNumbers : List String
deriving Repr, DecidableEq

/-- Per-phone loop of snapshot 2 (lines 514-554): no dedup; RJB filter,
normalization, authorization lookup, inner call; each of the three
successful outcomes writes a membership record, sets its flag and
increments `processedPhones`. -/
def addLoopV2 (env : AddFlowEnv) (item : AddQueueItem) (groupJid : String)
    (meta : GroupMetadata) (workerId : Int) :
    LoopStateV2 → List MemberPhone → Except JsErr (LoopStateV2 × List Ev)
  | st, [] => .ok (st, [])
  | st, phone :: rest =>
      if item.group_type = "RJB" && !phone.is_legal_rep then
        addLoopV2 env item groupJid meta workerId st rest
      else
        match normalizeDigits phone.phone with
        | none => addLoopV2 env item groupJid meta workerId st rest
        | some normalized =>
            let authKey := last8 normalized
            match env.auth authKey workerId with
            | none =>
                let st1 := { st with notAuthorizedNumbers := st.notAuthorizedNumbers ++ [normalized] }
                match addLoopV2 env item groupJid meta workerId st1 rest with
                | .error e => .error e
                | .ok (st', evs) => .ok (st', Ev.authLookup authKey workerId :: evs)
            | some authorized =>
                if authorized.phone_number = "" then
                  let st1 := { st with notAuthorizedNumbers := st.notAuthorizedNumbers ++ [normalized] }
                  match addLoopV2 env item groupJid meta workerId st1 rest with
                  | .error e => .error e
                  | .ok (st', evs) => .ok (st', Ev.authLookup authKey workerId :: evs)
                else
                  let aphone := authorized.phone_number
                  match addMemberToGroup (env.amg aphone) aphone groupJid item.request_id (some meta) with
                  | .error e => .error e
                  | .ok (attempt, innerEvs) =>
                      let evsHere := Ev.authLookup authKey workerId :: Ev.addCall aphone ::
                        innerEvs ++ [Ev.attemptOutcome aphone attempt]
                      let r := st.results
                      if attempt.added then
                        let st2 := { st with results := { r with added := true, processedPhones := r.processedPhones + 1 } }
                        match addLoopV2 env item groupJid meta workerId st2 rest with
                        | .error e => .error e
                        | .ok (st', evs) =>
                            .ok (st', evsHere
                              ++ [Ev.recordEntry item.registration_id normalized groupJid] ++ evs)
                      else if attempt.isInviteV4Sent then
                        let st2 := { st with results := { r with inviteSent := true, processedPhones := r.processedPhones + 1 } }
                        match addLoopV2 env item groupJid meta workerId st2 rest with
                        | .error e => .error e
                        | .ok (st', evs) =>
                            .ok (st', evsHere
                              ++ [Ev.recordEntry item.registration_id normalized groupJid] ++ evs)
                      else if attempt.alreadyInGroup then
                        let st2 := { st with results := { r with alreadyInGroup := true, processedPhones := r.processedPhones + 1 } }
                        match addLoopV2 env item groupJid meta workerId st2 rest with
                        | .error e => .error e
                        | .ok (st', evs) =>
                            .ok (st', evsHere
                              ++ [Ev.recordEntry item.registration_id normalized groupJid] ++ evs)
                      else
                        match addLoopV2 env item groupJid meta workerId st rest with
                        | .error e => .error e
                        | .ok (st', evs) => .ok (st', evsHere ++ evs)

/-- `processAddQueue` from snapshot 2 (lines 466-580): admin gate and phone
gate notify and register an attempt, no dedup, finalization on
`processedPhones > 0`, consolidated failure notification otherwise. -/
def processAddQueueV2 (env : AddFlowEnv) (worker : Worker) (item : AddQueueItem) :
    Except JsErr (AddProcessResult × List Ev) :=
  match asGroupJid item.group_id with
  | .error e => .error e
  | .ok groupJid =>
      match env.meta with
      | .error e => .error e
      | .ok meta =>
          if !checkIfSelfIsAdminV2 env.selfId env.selfAlt meta then
            .ok (baseResult 0 0, [Ev.notifyFailure item.request_id, Ev.registerAttempt item.request_id])
          else if env.memberPhones.isEmpty then
            .ok (baseResult 0 0, [Ev.notifyFailure item.request_id, Ev.registerAttempt item.request_id])
          else
            let st0 : LoopStateV2 :=
              ⟨⟨false, false, false, 0, env.memberPhones.length⟩, []⟩
            match addLoopV2 env item groupJid meta worker.id st0 env.memberPhones with
            | .error e => .error e
            | .ok (st, evs) =>
                if st.results.processedPhones > 0 then
                  .ok (st.results, evs ++ [Ev.registerFulfilled item.request_id])
                else
                  .ok (st.results, evs ++ [Ev.registerAttempt item.request_id, Ev.notifyFailure item.request_id])

-- ---------------------------------------------------------------------------
-- Derived classifiers and concrete fixtures
-- ---------------------------------------------------------------------------

/-- True for a request-fulfilled registration of any request id. -/
def isRegisterFulfilledEv : Ev → Bool
  | .registerFulfilled _ => true
  | _ => false

/-- True for an attempt registration of any request id. -/
def isRegisterAttemptEv : Ev → Bool
  | .registerAttempt _ => true
  | _ => false

/-- True for a failure notification of any request id. -/
def isNotifyFailureEv : Ev → Bool
  | .notifyFailure _ => true
  | _ => false

/-- Events `addMemberToGroup` itself can emit (the outcome markers, lookups,
record writes and finalization events belong to the outer loop). -/
def isInnerEv : Ev → Bool
  | .updateCall _ _ _ => true
  | .inviteAttempt _ => true
  | .notifyFailure _ => true
  | _ => false

/-- True for either request-finalization event. -/
def isFinalizeEv : Ev → Bool
  | .registerFulfilled _ => true
  | .registerAttempt _ => true
  | _ => false

/-- The three outcome flags of the aggregate result folded into one bit. -/
def successFlags (r : AddProcessResult) : Bool :=
  r.added || r.inviteSent || r.alreadyInGroup

/-- Fixture: an invite environment in which every call succeeds. -/
def inviteEnvOK : InviteEnv :=
  ⟨.ok "code", .ok (), .ok "code", .ok ()⟩

/-- Fixture: an invite environment in which both invite-code calls throw, so
the invite fallback reports failure. -/
def inviteEnvFail : InviteEnv :=
  ⟨.error (.mk "code failed"), .ok (), .error (.mk "code failed"), .ok ()⟩

/-- Fixture: an inner-call environment whose update call settles with 200. -/
def amgEnvAdd : AMGEnv :=
  ⟨.ok {}, .ok [.num 200], .ok {}, inviteEnvOK⟩

/-- Fixture: an inner-call environment whose update call settles with 403 and
whose invite fallback fails. -/
def amgEnvPolicyFail : AMGEnv :=
  ⟨.ok {}, .ok [.num 403], .ok {}, inviteEnvFail⟩

/-- Fixture: an inner-call environment whose update call throws and whose
invite fallback fails. -/
def amgEnvErr : AMGEnv :=
  ⟨.ok {}, .error (.mk "boom"), .ok {}, inviteEnvFail⟩

/-- Fixture: the bot's participant entry, as group admin. -/
def selfAdminP : GroupParticipant :=
  { id := "5500@s.whatsapp.net", admin := some "admin" }

/-- Fixture: the bot's participant entry, without admin role. -/
def selfPlainP : GroupParticipant :=
  { id := "5500@s.whatsapp.net" }

/-- Fixture: roster in which the bot is admin. -/
def metaAdmin : GroupMetadata :=
  { subject := some "G", participants := [selfAdminP] }

/-- Fixture: roster in which the bot is present but not admin. -/
def metaPlain : GroupMetadata :=
  { subject := some "G", participants := [selfPlainP] }

/-- Fixture: the worker identity. -/
def workerFx : Worker := ⟨7, "5500"⟩

/-- Fixture: a default-type Add work item. -/
def itemFx : AddQueueItem := ⟨42, "900", "g1", "MB"⟩

/-- Fixture: an RJB-type Add work item. -/
def itemRJB : AddQueueItem := ⟨42, "900", "g1", "RJB"⟩

/-- Fixture: add-flow environment with two member phones that differ only in
the country-code prefix (same last 8 digits), both authorized to the same
number, and an inner call that always adds successfully. -/
def addEnvDup : AddFlowEnv :=
  { meta := .ok metaAdmin,
    selfId := some "5500:1@s.whatsapp.net",
    selfAlt := none,
    memberPhones := [⟨"+5511999998888", false⟩, ⟨"11999998888", false⟩],
    auth := fun _ _ => some ⟨"5511999998888"⟩,
    amg := fun _ => amgEnvAdd }

/-- Fixture: the same environment against a roster where the bot is not
admin. -/
def addEnvNonAdmin : AddFlowEnv :=
  { addEnvDup with meta := .ok metaPlain }

/-- Fixture: remove-flow target participant, present only in the group. -/
def rmTargetP : GroupParticipant := { id := "5511999990000@s.whatsapp.net" }

/-- Fixture: an unrelated community participant. -/
def rmOtherP : GroupParticipant := { id := "440000000000@s.whatsapp.net" }

/-- Fixture: remove-flow environment for a work item with a community id
whose community roster does not contain the target, while the group roster
does (target not admin) and the removal call would succeed. -/
def removeEnvC4 : RemoveEnv :=
  { communityMeta := .ok (some { subject := some "Comm", participants := [rmOtherP] }),
    groupMeta := .ok (some { subject := some "Grp", participants := [rmTargetP] }),
    commUpdate := .ok (.arr [.num 200]),
    groupUpdate := .ok (.arr [.num 200]) }

/-- Fixture: remove-flow target marked as community admin. -/
def rmAdminP : GroupParticipant :=
  { id := "5511999990000@s.whatsapp.net", admin := some "superadmin" }

/-- Fixture: remove-flow environment whose community and group rosters both
contain the target as admin. -/
def removeEnvAdmin : RemoveEnv :=
  { communityMeta := .ok (some { subject := some "Comm", participants := [rmAdminP] }),
    groupMeta := .ok (some { subject := some "Grp", participants := [rmAdminP] }),
    commUpdate := .ok (.arr [.num 200]),
    groupUpdate := .ok (.arr [.num 200]) }

-- ---------------------------------------------------------------------------
-- Supporting lemmas
-- ---------------------------------------------------------------------------

theorem withRetryAux_allError {α : Type} (f : Nat → Except JsErr α) (g : Nat → JsErr)
    (mr : Nat) : ∀ n a, mr - a = n → a ≤ mr →
    (∀ i, a ≤ i → i ≤ mr → f i = .error (g i)) →
    withRetryAux f mr a = (.error (g mr), mr + 1) := by
  intro n
  induction n with
  | zero =>
      intro a hn ha hf
      have haeq : a = mr := by omega
      subst haeq
      unfold withRetryAux
      rw [hf a le_rfl le_rfl]
      simp
  | succ k ih =>
      intro a hn ha hf
      have ha' : a < mr := by omega
      unfold withRetryAux
      rw [hf a le_rfl (by omega)]
      simp only [ha', dif_pos]
      exact ih (a + 1) (by omega) (by omega) (fun i h1 h2 => hf i (by omega) h2)

-- ---------------------------------------------------------------------------
-- C8: withRetry retries only on exceptions; exhaustion surfaces the last error
-- ---------------------------------------------------------------------------

/-- **C8.** `withRetry` retries the wrapped operation only when it throws: a
returned value is handed back as-is after a single call, and when every
attempt up to the configured retry bound throws, the error of the last
attempt is rethrown (after `maxRetries + 1` calls). -/
theorem withRetry_spec {α : Type} (f : Nat → Except JsErr α) (g : Nat → JsErr)
    (mr : Nat) (v : α) :
    (f 0 = .ok v → withRetry f mr = (.ok v, 1)) ∧
    ((∀ i, i ≤ mr → f i = .error (g i)) → withRetry f mr = (.error (g mr), mr + 1)) := by
  constructor
  · intro h
    unfold withRetry withRetryAux
    rw [h]
  · intro h
    exact withRetryAux_allError f g mr mr 0 (by omega) (Nat.zero_le mr)
      (fun i h1 h2 => h i h2)

/-- Witness for C8 at a concrete operation: first call returns 5, so the value
is returned after exactly one call; a second operation that always throws
surfaces the error of attempt 2 after 3 calls. -/
theorem withRetry_spec_witness :
    ((fun _ => Except.ok 5 : Nat → Except JsErr Nat) 0 = .ok 5 ∧
      withRetry (fun _ => Except.ok 5) 2 = (.ok 5, 1)) ∧
    ((∀ i, i ≤ 2 → (fun j => (Except.error (.mk (toString j)) : Except JsErr Nat)) i
        = .error (.mk (toString i))) ∧
      withRetry (fun j => (Except.error (.mk (toString j)) : Except JsErr Nat)) 2
        = (.error (.mk "2"), 3)) :=
  ⟨⟨rfl, (withRetry_spec (fun _ => Except.ok 5) (fun j => .mk (toString j)) 2 5).1 rfl⟩,
   ⟨fun _ _ => rfl,
    (withRetry_spec (fun j => Except.error (.mk (toString j))) (fun j => .mk (toString j)) 2 5).2
      (fun _ _ => rfl)⟩⟩

-- ---------------------------------------------------------------------------
-- C9: withTimeout races against a timer and always clears it
-- ---------------------------------------------------------------------------

/-- **C9.** `withTimeout` races the operation against a `timeoutMs` timer: an
operation that never settles surfaces as the timeout error instead of
hanging, an operation that settles first has its outcome returned
unchanged, and on either path the timer is cleared. -/
theorem withTimeout_spec {α : Type} (op : JsPromise α) (ms t : Nat) (r : Except JsErr α) :
    (withTimeout (α := α) none ms).1 = .error (.timeout ms) ∧
    (t < ms → (withTimeout (some (t, r)) ms).1 = r) ∧
    (withTimeout op ms).2 = true := by
  refine ⟨rfl, fun h => ?_, rfl⟩
  simp [withTimeout, promiseRace, h]

/-- Witness for C9 at time 3 against a 10ms timer. -/
theorem withTimeout_spec_witness :
    3 < 10 ∧ (withTimeout (some (3, Except.ok (5 : Nat))) 10).1 = .ok 5 :=
  ⟨by decide, (withTimeout_spec (α := Nat) none 10 3 (.ok 5)).2.1 (by decide)⟩

theorem addMemberToGroup_ok_jid (env : AMGEnv) (phone groupJid : String) (rid : Int)
    (metaOpt : Option GroupMetadata) (uj : String)
    (hjid : phoneToUserJid phone = .ok uj) :
    addMemberToGroup env phone groupJid rid metaOpt =
      match addTryBody env uj groupJid rid metaOpt with
      | (.ok r, evs) => .ok (r, evs)
      | (.error _, evs) => .ok (addCatchBody env uj rid metaOpt evs) := by
  unfold addMemberToGroup
  rw [hjid]

-- ---------------------------------------------------------------------------
-- C10: addMemberToGroup never rejects (for inputs with a digit) — corrected
-- ---------------------------------------------------------------------------

/-- **C10 (amended).** For every input whose phone contains at least one
digit, `addMemberToGroup` settles with an `AddAttemptResult` whatever the
collaborator calls do; and when the add call throws, metadata was passed
in, and the invite fallback reports failure, the result is the all-false
record (notification errors are swallowed inside `safeNotifyFailure`). -/
theorem addMemberToGroup_total (env : AMGEnv) (phone groupJid : String) (rid : Int)
    (metaOpt : Option GroupMetadata) (h : digitsOf phone ≠ "") :
    (∃ r evs, addMemberToGroup env phone groupJid rid metaOpt = .ok (r, evs)) ∧
    (∀ e m, env.update = .error e → metaOpt = some m →
      sendGroupInviteMessage env.invite = false →
      ∃ evs, addMemberToGroup env phone groupJid rid metaOpt
        = .ok (⟨false, false, false⟩, evs)) := by
  have hjid : phoneToUserJid phone = .ok (digitsOf phone ++ "@s.whatsapp.net") := by
    unfold phoneToUserJid
    simp [h]
  constructor
  · rw [addMemberToGroup_ok_jid env phone groupJid rid metaOpt _ hjid]
    rcases h2 : addTryBody env (digitsOf phone ++ "@s.whatsapp.net") groupJid rid metaOpt
      with ⟨res, evs⟩
    cases res with
    | ok r => exact ⟨r, evs, rfl⟩
    | error e =>
        exact ⟨(addCatchBody env (digitsOf phone ++ "@s.whatsapp.net") rid metaOpt evs).1,
          (addCatchBody env (digitsOf phone ++ "@s.whatsapp.net") rid metaOpt evs).2, rfl⟩
  · intro e m hupd hm hinv
    subst hm
    rw [addMemberToGroup_ok_jid env phone groupJid rid (some m) _ hjid]
    unfold addTryBody addCatchBody
    rw [hupd]
    simp only [hinv, Bool.false_eq_true, if_false]
    exact ⟨_, rfl⟩

/-- Witness for C10: a phone with digits, an update call that throws and a
failing invite fallback produce the all-false result. -/
theorem addMemberToGroup_total_witness :
    digitsOf "+5511999998888" ≠ "" ∧
    (∃ r evs, addMemberToGroup amgEnvErr "+5511999998888" "g1@g.us" 42 (some metaAdmin)
      = .ok (r, evs)) ∧
    (∃ evs, addMemberToGroup amgEnvErr "+5511999998888" "g1@g.us" 42 (some metaAdmin)
      = .ok (⟨false, false, false⟩, evs)) :=
  ⟨by decide,
   (addMemberToGroup_total amgEnvErr "+5511999998888" "g1@g.us" 42 (some metaAdmin)
      (by decide)).1,
   (addMemberToGroup_total amgEnvErr "+5511999998888" "g1@g.us" 42 (some metaAdmin)
      (by decide)).2 (.mk "boom") metaAdmin rfl rfl (by decide)⟩

/-- Counterexample for C10 as stated: on a phone without digits
`phoneToUserJid` runs before the `try` block, so `addMemberToGroup`
propagates the exception instead of returning an `AddAttemptResult`. -/
theorem addMemberToGroup_total_counterexample :
    addMemberToGroup amgEnvAdd "" "g1@g.us" 42 (some metaAdmin)
      = .error (.mk "Invalid number: \"\"") := rfl

-- ---------------------------------------------------------------------------
-- C2: status mapping of the update-participant call in the add flow
-- ---------------------------------------------------------------------------

/-- **C2.** With the group metadata passed in (as the add flow always does):
a response whose first status maps to 200 yields `added`, 409 yields
`already_member`, and any other status value — as well as a thrown
exception — leads to exactly one invocation of the invite-fallback path. -/
theorem addMemberToGroup_status_mapping (env : AMGEnv) (phone groupJid : String)
    (rid : Int) (m : GroupMetadata) (uj : String)
    (hjid : phoneToUserJid phone = .ok uj) :
    (∀ resp, env.update = .ok resp → respStatus resp = some 200 →
      addMemberToGroup env phone groupJid rid (some m)
        = .ok (⟨true, false, false⟩, [Ev.updateCall groupJid uj "add"])) ∧
    (∀ resp, env.update = .ok resp → respStatus resp = some 409 →
      addMemberToGroup env phone groupJid rid (some m)
        = .ok (⟨false, false, true⟩, [Ev.updateCall groupJid uj "add"])) ∧
    (∀ resp, env.update = .ok resp → respStatus resp ≠ some 200 →
      respStatus resp ≠ some 409 →
      ∃ r evs, addMemberToGroup env phone groupJid rid (some m) = .ok (r, evs) ∧
        evs.countP isInviteAttemptEv = 1) ∧
    (∀ e, env.update = .error e →
      ∃ r evs, addMemberToGroup env phone groupJid rid (some m) = .ok (r, evs) ∧
        evs.countP isInviteAttemptEv = 1) := by
  refine ⟨?_, ?_, ?_, ?_⟩
  · intro resp hupd hst
    rw [addMemberToGroup_ok_jid env phone groupJid rid (some m) uj hjid]
    unfold addTryBody
    rw [hupd]
    simp [hst]
  · intro resp hupd hst
    rw [addMemberToGroup_ok_jid env phone groupJid rid (some m) uj hjid]
    unfold addTryBody
    rw [hupd]
    simp [hst]
  · intro resp hupd h200 h409
    rw [addMemberToGroup_ok_jid env phone groupJid rid (some m) uj hjid]
    unfold addTryBody
    rw [hupd]
    simp only [if_neg h200, if_neg h409]
    by_cases hinv : sendGroupInviteMessage env.invite
    · refine ⟨⟨false, true, false⟩,
        [Ev.updateCall groupJid uj "add"] ++ [Ev.inviteAttempt uj], ?_, ?_⟩
      · simp [hinv]
      · simp [List.countP_cons, isInviteAttemptEv]
    · refine ⟨⟨false, false, false⟩,
        ([Ev.updateCall groupJid uj "add"] ++ [Ev.inviteAttempt uj])
          ++ [Ev.notifyFailure rid], ?_, ?_⟩
      · simp only [hinv, Bool.false_eq_true, if_false]
      · simp [List.countP_cons, List.countP_append, isInviteAttemptEv]
  · intro e hupd
    rw [addMemberToGroup_ok_jid env phone groupJid rid (some m) uj hjid]
    unfold addTryBody addCatchBody
    rw [hupd]
    by_cases hinv : sendGroupInviteMessage env.invite
    · refine ⟨⟨false, true, false⟩,
        [Ev.updateCall groupJid uj "add"] ++ [Ev.inviteAttempt uj], ?_, ?_⟩
      · simp [hinv]
      · simp [List.countP_cons, List.countP_append, isInviteAttemptEv]
    · refine ⟨⟨false, false, false⟩,
        ([Ev.updateCall groupJid uj "add"] ++ [Ev.inviteAttempt uj])
          ++ [Ev.notifyFailure rid], ?_, ?_⟩
      · simp only [hinv, Bool.false_eq_true, if_false]
      · simp [List.countP_cons, List.countP_append, isInviteAttemptEv]

/-- Witness for C2: with a 403 response and a failing invite environment the
invite-fallback path runs exactly once. -/
theorem addMemberToGroup_status_mapping_witness :
    phoneToUserJid "+5511999998888" = .ok "5511999998888@s.whatsapp.net" ∧
    amgEnvPolicyFail.update = .ok [.num 403] ∧
    (∃ r evs,
      addMemberToGroup amgEnvPolicyFail "+5511999998888" "g1@g.us" 42 (some metaAdmin)
        = .ok (r, evs) ∧ evs.countP isInviteAttemptEv = 1) :=
  ⟨rfl, rfl,
   (addMemberToGroup_status_mapping amgEnvPolicyFail "+5511999998888" "g1@g.us" 42
      metaAdmin "5511999998888@s.whatsapp.net" rfl).2.2.1 [.num 403] rfl
      (by decide) (by decide)⟩

-- ---------------------------------------------------------------------------
-- C3: admin protection in the remove flow
-- ---------------------------------------------------------------------------

/-- **C3.** When the roster examined by the remove flow (the community roster
when a community id is present, the group roster otherwise) contains the
target with role `admin` or `superadmin`, `removeMemberFromGroup` issues no
removal call and returns a non-removed outcome with `errorReason`
populated: the whole trace is the single roster fetch. -/
theorem removeMemberFromGroup_admin_protection
    (env : RemoveEnv) (phone groupId cid cjid gjid : String)
    (cm gm : GroupMetadata) (p q : GroupParticipant) (uj : String)
    (hjid : phoneToUserJid phone = .ok uj) :
    (cid ≠ "" → asGroupJid cid = .ok cjid →
      env.communityMeta = .ok (some cm) →
      findParticipant cm (some uj) = some p →
      (p.admin = some "admin" ∨ p.admin = some "superadmin") →
      ∃ gname reason, removeMemberFromGroup env phone groupId (some cid)
        = .ok (⟨false, none, some gname, some reason⟩, [Ev.fetchMeta cjid])) ∧
    (asGroupJid groupId = .ok gjid →
      env.groupMeta = .ok (some gm) →
      findParticipant gm (some uj) = some q →
      (q.admin = some "admin" ∨ q.admin = some "superadmin") →
      ∃ gname reason, removeMemberFromGroup env phone groupId none
        = .ok (⟨false, none, some gname, some reason⟩, [Ev.fetchMeta gjid])) := by
  constructor
  · intro hc hgj hcm hfind hadm
    have htr : jsTruthy (some cid) = true := by simp [jsTruthy, hc]
    have hadm' : jsTruthy p.admin = true := by
      rcases hadm with h | h <;> simp [jsTruthy, h]
    unfold removeMemberFromGroup removeCommunityStep
    rw [hjid]
    simp only [htr, if_true, Option.getD_some]
    rw [hgj, hcm]
    simp only [hfind, hadm', if_true]
    exact ⟨_, _, rfl⟩
  · intro hgj hgm hfind hadm
    have htr : jsTruthy (none : Option String) = false := rfl
    have hadm' : jsTruthy q.admin = true := by
      rcases hadm with h | h <;> simp [jsTruthy, h]
    unfold removeMemberFromGroup removeGroupStep
    rw [hjid]
    simp only [htr, Bool.false_eq_true, if_false]
    rw [hgj, hgm]
    simp only [hfind, hadm', if_true]
    exact ⟨_, _, rfl⟩

/-- Witness for C3: a target that is superadmin in the community (and in the
group) is not removed in either scope; only the roster fetch is traced. -/
theorem removeMemberFromGroup_admin_protection_witness :
    findParticipant { subject := some "Comm", participants := [rmAdminP] }
      (some "5511999990000@s.whatsapp.net") = some rmAdminP ∧
    (∃ gname reason, removeMemberFromGroup removeEnvAdmin "5511999990000" "g1" (some "c1")
      = .ok (⟨false, none, some gname, some reason⟩, [Ev.fetchMeta "c1@g.us"])) ∧
    (∃ gname reason, removeMemberFromGroup removeEnvAdmin "5511999990000" "g1" none
      = .ok (⟨false, none, some gname, some reason⟩, [Ev.fetchMeta "g1@g.us"])) :=
  ⟨by decide,
   (removeMemberFromGroup_admin_protection removeEnvAdmin "5511999990000" "g1" "c1"
      "c1@g.us" "g1@g.us" { subject := some "Comm", participants := [rmAdminP] }
      { subject := some "Grp", participants := [rmAdminP] } rmAdminP rmAdminP
      "5511999990000@s.whatsapp.net" rfl).1
      (by decide) rfl rfl (by decide) (Or.inr rfl),
   (removeMemberFromGroup_admin_protection removeEnvAdmin "5511999990000" "g1" "c1"
      "c1@g.us" "g1@g.us" { subject := some "Comm", participants := [rmAdminP] }
      { subject := some "Grp", participants := [rmAdminP] } rmAdminP rmAdminP
      "5511999990000@s.whatsapp.net" rfl).2
      rfl rfl (by decide) (Or.inr rfl)⟩

-- ---------------------------------------------------------------------------
-- C4: no fall-through from community to group (code bug)
-- ---------------------------------------------------------------------------

/-- **C4 (failing input).** With a community id present and the target absent
from the community roster, `removeMemberFromGroup` returns a non-removed
outcome right away: the group roster—which contains the target as a
removable non-admin—is never fetched and no removal call is issued, while
the in-code documentation ("Attempts community first (if provided), then
the group") and the specification prescribe falling through to the group. -/
theorem removeMemberFromGroup_no_community_fallthrough :
    removeMemberFromGroup removeEnvC4 "5511999990000" "g1" (some "c1")
      = .ok (⟨false, none, some "Comm",
          some "Participante 5511999990000 não encontrado na comunidade Comm (c1)."⟩,
        [Ev.fetchMeta "c1@g.us"]) := rfl

-- ---------------------------------------------------------------------------
-- C6: not-admin gate — corrected (snapshot 1 registers no attempt)
-- ---------------------------------------------------------------------------

/-- **C6 (amended).** In snapshot 2, when the bot is not an admin of the
fetched roster, the flow stops with zero phones processed, sends the
failure notification and registers the request as an attempt (never as
fulfilled).  Snapshot 1 also stops with zero phones and notifies, but
registers neither an attempt nor fulfilment (see the counterexample). -/
theorem processAddQueueV2_notAdmin_attempt (env : AddFlowEnv) (worker : Worker)
    (item : AddQueueItem) (m : GroupMetadata) (gj : String)
    (hgj : asGroupJid item.group_id = .ok gj)
    (hmeta : env.meta = .ok m)
    (hadm : checkIfSelfIsAdminV2 env.selfId env.selfAlt m = false) :
    processAddQueueV2 env worker item
      = .ok (baseResult 0 0,
          [Ev.notifyFailure item.request_id, Ev.registerAttempt item.request_id]) := by
  unfold processAddQueueV2
  rw [hgj, hmeta]
  simp [hadm]

/-- Witness for C6 against a roster where the bot is present without the
admin role. -/
theorem processAddQueueV2_notAdmin_attempt_witness :
    checkIfSelfIsAdminV2 addEnvNonAdmin.selfId addEnvNonAdmin.selfAlt metaPlain = false ∧
    processAddQueueV2 addEnvNonAdmin workerFx itemFx
      = .ok (baseResult 0 0, [Ev.notifyFailure 42, Ev.registerAttempt 42]) :=
  ⟨by decide,
   processAddQueueV2_notAdmin_attempt addEnvNonAdmin workerFx itemFx metaPlain
     "g1@g.us" rfl rfl (by decide)⟩

/-- Counterexample for C6 as stated: in snapshot 1 the same not-admin input
produces the failure notification and zero processed phones, but no call
to `registerWhatsappAddAttempt` (and none to fulfilment) is made. -/
theorem processAddQueueV1_notAdmin_counterexample :
    (processAddQueueV1 addEnvNonAdmin workerFx itemFx).map
      (fun x => (x.1.processedPhones, x.2.countP isNotifyFailureEv,
        x.2.countP isRegisterAttemptEv, x.2.countP isRegisterFulfilledEv))
      = .ok (0, 1, 0, 0) := rfl

-- ---------------------------------------------------------------------------
-- C7: RJB filter skips non-legal-representative phones entirely
-- ---------------------------------------------------------------------------

theorem addLoopV1_skip (env : AddFlowEnv) (item : AddQueueItem) (gj : String)
    (m : GroupMetadata) (wid : Int) (p : MemberPhone) (ms' : List MemberPhone)
    (hRJB : item.group_type = "RJB") (hp : p.is_legal_rep = false) :
    ∀ (ms : List MemberPhone) (st : LoopStateV1),
      addLoopV1 env item gj m wid st (ms ++ p :: ms')
        = addLoopV1 env item gj m wid st (ms ++ ms') := by
  intro ms
  induction ms with
  | nil =>
      intro st
      simp only [List.nil_append]
      rw [addLoopV1]
      simp [hRJB, hp]
  | cons m0 ms ih =>
      intro st
      simp only [List.cons_append]
      rw [addLoopV1, addLoopV1]
      simp only [ih]

theorem addLoopV2_skip (env : AddFlowEnv) (item : AddQueueItem) (gj : String)
    (m : GroupMetadata) (wid : Int) (p : MemberPhone) (ms' : List MemberPhone)
    (hRJB : item.group_type = "RJB") (hp : p.is_legal_rep = false) :
    ∀ (ms : List MemberPhone) (st : LoopStateV2),
      addLoopV2 env item gj m wid st (ms ++ p :: ms')
        = addLoopV2 env item gj m wid st (ms ++ ms') := by
  intro ms
  induction ms with
  | nil =>
      intro st
      simp only [List.nil_append]
      rw [addLoopV2]
      simp [hRJB, hp]
  | cons m0 ms ih =>
      intro st
      simp only [List.cons_append]
      rw [addLoopV2, addLoopV2]
      simp only [ih]

/-- **C7.** For an RJB work item, a member phone that is not flagged as legal
representative contributes nothing to the per-phone loop of either
snapshot: the loop on a list containing it equals the loop on the list
without it, so it is never looked up for authorization, never attempted,
never recorded and never counted as processed. -/
theorem processAddQueue_rjb_filter (env : AddFlowEnv) (item : AddQueueItem)
    (gj : String) (m : GroupMetadata) (wid : Int) (p : MemberPhone)
    (ms ms' : List MemberPhone) (st1 : LoopStateV1) (st2 : LoopStateV2)
    (hRJB : item.group_type = "RJB") (hp : p.is_legal_rep = false) :
    addLoopV1 env item gj m wid st1 (ms ++ p :: ms')
      = addLoopV1 env item gj m wid st1 (ms ++ ms') ∧
    addLoopV2 env item gj m wid st2 (ms ++ p :: ms')
      = addLoopV2 env item gj m wid st2 (ms ++ ms') :=
  ⟨addLoopV1_skip env item gj m wid p ms' hRJB hp ms st1,
   addLoopV2_skip env item gj m wid p ms' hRJB hp ms st2⟩

/-- Witness for C7: dropping a non-legal-representative phone from an RJB
work item's list leaves both loops' outcomes unchanged on a concrete
environment. -/
theorem processAddQueue_rjb_filter_witness :
    itemRJB.group_type = "RJB" ∧
    addLoopV1 addEnvDup itemRJB "g1@g.us" metaAdmin 7 ⟨baseResult 0 2, false⟩
        ([⟨"+5511999998888", true⟩] ++ ⟨"11999998888", false⟩ :: [])
      = addLoopV1 addEnvDup itemRJB "g1@g.us" metaAdmin 7 ⟨baseResult 0 2, false⟩
        ([⟨"+5511999998888", true⟩] ++ []) ∧
    addLoopV2 addEnvDup itemRJB "g1@g.us" metaAdmin 7 ⟨baseResult 0 2, []⟩
        ([⟨"+5511999998888", true⟩] ++ ⟨"11999998888", false⟩ :: [])
      = addLoopV2 addEnvDup itemRJB "g1@g.us" metaAdmin 7 ⟨baseResult 0 2, []⟩
        ([⟨"+5511999998888", true⟩] ++ []) :=
  ⟨rfl,
   (processAddQueue_rjb_filter addEnvDup itemRJB "g1@g.us" metaAdmin 7
      ⟨"11999998888", false⟩ [⟨"+5511999998888", true⟩] [] ⟨baseResult 0 2, false⟩
      ⟨baseResult 0 2, []⟩ rfl rfl).1,
   (processAddQueue_rjb_filter addEnvDup itemRJB "g1@g.us" metaAdmin 7
      ⟨"11999998888", false⟩ [⟨"+5511999998888", true⟩] [] ⟨baseResult 0 2, false⟩
      ⟨baseResult 0 2, []⟩ rfl rfl).2⟩

-- ---------------------------------------------------------------------------
-- Events emitted by the inner call are inner events
-- ---------------------------------------------------------------------------

theorem inner_ev_props (e : Ev) (h : isInnerEv e = true) :
    isSuccessOutcomeEv e = false ∧ isFinalizeEv e = false ∧
    (∀ k, isAuthLookupEv k e = false) := by
  cases e <;> simp_all [isInnerEv, isSuccessOutcomeEv, isFinalizeEv, isAuthLookupEv]

theorem addTryBody_evs_inner (env : AMGEnv) (uj gj : String) (rid : Int)
    (metaOpt : Option GroupMetadata) :
    (addTryBody env uj gj rid metaOpt).2.all isInnerEv = true := by
  unfold addTryBody
  split
  · rfl
  · split
    · rfl
    · dsimp only
      split
      · rfl
      · split
        · rfl
        · split <;> rfl

theorem addCatchBody_evs_inner (env : AMGEnv) (uj : String) (rid : Int)
    (metaOpt : Option GroupMetadata) (evs : List Ev)
    (h : evs.all isInnerEv = true) :
    (addCatchBody env uj rid metaOpt evs).2.all isInnerEv = true := by
  unfold addCatchBody
  split
  · dsimp only
    split <;> simp_all [List.all_append, isInnerEv]
  · simp_all [List.all_append, isInnerEv]

theorem addMemberToGroup_evs_inner (env : AMGEnv) (phone gj : String) (rid : Int)
    (metaOpt : Option GroupMetadata) (r : AddAttemptResult) (evs : List Ev)
    (h : addMemberToGroup env phone gj rid metaOpt = .ok (r, evs)) :
    evs.all isInnerEv = true := by
  unfold addMemberToGroup at h
  split at h
  · exact absurd h (by simp)
  · next uj _ =>
      split at h
      · next r' evs' heq =>
          cases h
          have := addTryBody_evs_inner env uj gj rid metaOpt
          rw [heq] at this
          exact this
      · next e' evs' heq =>
          injection h with h2
          have h1 := addTryBody_evs_inner env uj gj rid metaOpt
          rw [heq] at h1
          have h3 := addCatchBody_evs_inner env uj rid metaOpt evs' h1
          rw [h2] at h3
          exact h3

theorem inner_list_facts (evs : List Ev) (h : evs.all isInnerEv = true) :
    evs.any isSuccessOutcomeEv = false ∧
    evs.all (fun e => !isFinalizeEv e) = true ∧
    (∀ k, evs.countP (isAuthLookupEv k) = 0) := by
  rw [List.all_eq_true] at h
  refine ⟨?_, ?_, ?_⟩
  · rw [List.any_eq_false]
    intro e he
    have := inner_ev_props e (h e he)
    simp [this.1]
  · rw [List.all_eq_true]
    intro e he
    have := inner_ev_props e (h e he)
    simp [this.2.1]
  · intro k
    rw [List.countP_eq_zero]
    intro e he
    have := inner_ev_props e (h e he)
    simp [this.2.2 k]



-- ---------------------------------------------------------------------------
-- Per-phone loop invariants
-- ---------------------------------------------------------------------------
theorem countP_cons_key_le (phone : MemberPhone) (rest : List MemberPhone)
    (norm k : String) (hkey : phoneKey phone = some norm) (n : Nat)
    (hn : n ≤ rest.countP (fun x => decide (phoneKey x = some k))) :
    n + (if decide (norm = k) = true then 1 else 0)
      ≤ (phone :: rest).countP (fun x => decide (phoneKey x = some k)) := by
  rw [List.countP_cons]
  have he : (decide (phoneKey phone = some k)) = (decide (norm = k)) := by
    rw [hkey]
    cases hd : decide (norm = k) with
    | true => simp [of_decide_eq_true hd]
    | false => simp [of_decide_eq_false hd]
  rw [he]
  omega

theorem addLoopV1_spec (env : AddFlowEnv) (item : AddQueueItem) (gj : String)
    (m : GroupMetadata) (wid : Int) :
    ∀ (l : List MemberPhone) (st st' : LoopStateV1) (evs : List Ev),
      addLoopV1 env item gj m wid st l = .ok (st', evs) →
      successFlags st'.results = (successFlags st.results || evs.any isSuccessOutcomeEv) ∧
      evs.all (fun e => !isFinalizeEv e) = true ∧
      (∀ k, evs.countP (isAuthLookupEv k)
        ≤ l.countP (fun x => decide (phoneKey x = some k))) := by
  intro l
  induction l with
  | nil =>
      intro st st' evs h
      rw [addLoopV1] at h
      cases h
      simp
  | cons phone rest ih =>
      intro st st' evs h
      rw [addLoopV1] at h
      split at h
      · obtain ⟨h1, h2, h3⟩ := ih st st' evs h
        refine ⟨h1, h2, fun k => le_trans (h3 k) ?_⟩
        rw [List.countP_cons]
        exact Nat.le_add_right _ _
      · split at h
        · obtain ⟨h1, h2, h3⟩ := ih st st' evs h
          refine ⟨h1, h2, fun k => le_trans (h3 k) ?_⟩
          rw [List.countP_cons]
          exact Nat.le_add_right _ _
        · next normalized hnorm =>
            have hkey : phoneKey phone = some (last8 normalized) := by
              simp [phoneKey, hnorm]
            have eAuth : ∀ k, isAuthLookupEv k (Ev.authLookup (last8 normalized) wid)
                = decide (last8 normalized = k) := fun _ => rfl
            dsimp only at h
            split at h
            · -- authorization lookup returned none
              split at h
              · exact absurd h (by simp)
              · next st2 evs2 hrec =>
                  cases h
                  obtain ⟨h1, h2, h3⟩ := ih st _ _ hrec
                  refine ⟨?_, ?_, fun k => ?_⟩
                  · simpa [isSuccessOutcomeEv] using h1
                  · simpa [isFinalizeEv] using h2
                  · rw [List.countP_cons, eAuth k]
                    exact countP_cons_key_le phone rest (last8 normalized) k hkey _ (h3 k)
            · next authorized hauth =>
                split at h
                · -- authorization row with empty phone number
                  split at h
                  · exact absurd h (by simp)
                  · next st2 evs2 hrec =>
                      cases h
                      obtain ⟨h1, h2, h3⟩ := ih st _ _ hrec
                      refine ⟨?_, ?_, fun k => ?_⟩
                      · simpa [isSuccessOutcomeEv] using h1
                      · simpa [isFinalizeEv] using h2
                      · rw [List.countP_cons, eAuth k]
                        exact countP_cons_key_le phone rest (last8 normalized) k hkey _ (h3 k)
                · -- authorized: the inner call is made
                  split at h
                  · exact absurd h (by simp)
                  · next attempt innerEvs hamg =>
                      have hin := addMemberToGroup_evs_inner _ _ _ _ _ _ _ hamg
                      obtain ⟨hinS, hinF, hinA⟩ := inner_list_facts innerEvs hin
                      split at h
                      · next hcond =>
                          split at h
                          · exact absurd h (by simp)
                          · next st2 evs2 hrec =>
                              cases h
                              obtain ⟨h1, h2, h3⟩ := ih _ _ _ hrec
                              have hsucc : isSuccessOutcomeEv
                                  (Ev.attemptOutcome authorized.phone_number attempt) = true := by
                                simpa [isSuccessOutcomeEv] using hcond
                              refine ⟨?_, ?_, fun k => ?_⟩
                              · rw [h1]
                                have hflags : successFlags
                                    { st.results with
                                      added := st.results.added || attempt.added,
                                      inviteSent := st.results.inviteSent || attempt.isInviteV4Sent,
                                      alreadyInGroup :=
                                        st.results.alreadyInGroup || attempt.alreadyInGroup,
                                      processedPhones := st.results.processedPhones + 1 } = true := by
                                  cases ha : attempt.added <;>
                                    cases hi : attempt.isInviteV4Sent <;>
                                      cases hal : attempt.alreadyInGroup <;>
                                        simp_all [successFlags]
                                rw [hflags]
                                simp [List.any_append, List.any_cons, isSuccessOutcomeEv,
                                  hcond]
                              · simp only [List.all_cons, List.all_append, h2, hinF,
                                  Bool.and_true, Bool.true_and, Bool.and_eq_true]
                                simp [isFinalizeEv]
                              · have hic := hinA k
                                have he : (decide (phoneKey phone = some k))
                                    = (decide (last8 normalized = k)) := by
                                  rw [hkey]
                                  cases hd : decide (last8 normalized = k) with
                                  | true => simp [of_decide_eq_true hd]
                                  | false => simp [of_decide_eq_false hd]
                                have hres := h3 k
                                simp only [List.countP_cons, List.countP_append,
                                  List.countP_nil, hic, eAuth k, he]
                                simp [isAuthLookupEv]
                                omega
                      · next hcond =>
                          split at h
                          · exact absurd h (by simp)
                          · next st2 evs2 hrec =>
                              cases h
                              obtain ⟨h1, h2, h3⟩ := ih _ _ _ hrec
                              have hsucc : isSuccessOutcomeEv
                                  (Ev.attemptOutcome authorized.phone_number attempt) = false := by
                                simpa [isSuccessOutcomeEv] using hcond
                              refine ⟨?_, ?_, fun k => ?_⟩
                              · rw [h1]
                                have hsucc2 : (attempt.added || attempt.isInviteV4Sent
                                    || attempt.alreadyInGroup) = false := by
                                  simpa using hcond
                                simp [successFlags, List.any_append, List.any_cons,
                                  isSuccessOutcomeEv, hsucc2, hinS]
                              · simp only [List.all_cons, List.all_append, h2, hinF,
                                  Bool.and_true, Bool.true_and, Bool.and_eq_true]
                                simp [isFinalizeEv]
                              · have hic := hinA k
                                have he : (decide (phoneKey phone = some k))
                                    = (decide (last8 normalized = k)) := by
                                  rw [hkey]
                                  cases hd : decide (last8 normalized = k) with
                                  | true => simp [of_decide_eq_true hd]
                                  | false => simp [of_decide_eq_false hd]
                                have hres := h3 k
                                simp only [List.countP_cons, List.countP_append,
                                  List.countP_nil, hic, eAuth k, he]
                                simp [isAuthLookupEv]
                                omega

theorem addLoopV2_spec (env : AddFlowEnv) (item : AddQueueItem) (gj : String)
    (m : GroupMetadata) (wid : Int) :
    ∀ (l : List MemberPhone) (st st' : LoopStateV2) (evs : List Ev),
      addLoopV2 env item gj m wid st l = .ok (st', evs) →
      st'.results.processedPhones
        = st.results.processedPhones + evs.countP isSuccessOutcomeEv ∧
      evs.all (fun e => !isFinalizeEv e) = true := by
  intro l
  induction l with
  | nil =>
      intro st st' evs h
      rw [addLoopV2] at h
      cases h
      simp
  | cons phone rest ih =>
      intro st st' evs h
      rw [addLoopV2] at h
      split at h
      · exact ih st st' evs h
      · split at h
        · exact ih st st' evs h
        · next normalized hnorm =>
            dsimp only at h
            split at h
            · split at h
              · exact absurd h (by simp)
              · next st2 evs2 hrec =>
                  cases h
                  obtain ⟨h1, h2⟩ := ih _ _ _ hrec
                  refine ⟨?_, ?_⟩
                  · simpa [isSuccessOutcomeEv] using h1
                  · simpa [isFinalizeEv] using h2
            · next authorized hauth =>
                split at h
                · split at h
                  · exact absurd h (by simp)
                  · next st2 evs2 hrec =>
                      cases h
                      obtain ⟨h1, h2⟩ := ih _ _ _ hrec
                      refine ⟨?_, ?_⟩
                      · simpa [isSuccessOutcomeEv] using h1
                      · simpa [isFinalizeEv] using h2
                · split at h
                  · exact absurd h (by simp)
                  · next attempt innerEvs hamg =>
                      have hin := addMemberToGroup_evs_inner _ _ _ _ _ _ _ hamg
                      obtain ⟨hinS, hinF, hinA⟩ := inner_list_facts innerEvs hin
                      have hinC : innerEvs.countP isSuccessOutcomeEv = 0 := by
                        rw [List.countP_eq_zero]
                        exact List.any_eq_false.mp hinS
                      have eA : isSuccessOutcomeEv
                          (Ev.authLookup (last8 normalized) wid) = false := rfl
                      have eC : isSuccessOutcomeEv
                          (Ev.addCall authorized.phone_number) = false := rfl
                      have eR : ∀ reg ph g, isSuccessOutcomeEv
                          (Ev.recordEntry reg ph g) = false := fun _ _ _ => rfl
                      split at h
                      · next hadd =>
                          split at h
                          · exact absurd h (by simp)
                          · next st2 evs2 hrec =>
                              cases h
                              obtain ⟨h1, h2⟩ := ih _ _ _ hrec
                              have hout : isSuccessOutcomeEv
                                  (Ev.attemptOutcome authorized.phone_number attempt) = true := by
                                simp [isSuccessOutcomeEv, hadd]
                              refine ⟨?_, ?_⟩
                              · rw [h1]
                                simp [List.countP_cons, List.countP_append, List.countP_nil,
                                  hinC, hout, eA, eC, eR]
                                omega
                              · simp only [List.all_cons, List.all_append, h2, hinF,
                                  Bool.and_true, Bool.true_and, Bool.and_eq_true]
                                simp [isFinalizeEv]
                      · next hadd =>
                          split at h
                          · next hinv =>
                              split at h
                              · exact absurd h (by simp)
                              · next st2 evs2 hrec =>
                                  cases h
                                  obtain ⟨h1, h2⟩ := ih _ _ _ hrec
                                  have hout : isSuccessOutcomeEv
                                      (Ev.attemptOutcome authorized.phone_number attempt) = true := by
                                    simp [isSuccessOutcomeEv, hinv]
                                  refine ⟨?_, ?_⟩
                                  · rw [h1]
                                    simp [List.countP_cons, List.countP_append, List.countP_nil,
                                      hinC, hout, eA, eC, eR]
                                    omega
                                  · simp only [List.all_cons, List.all_append, h2, hinF,
                                      Bool.and_true, Bool.true_and, Bool.and_eq_true]
                                    simp [isFinalizeEv]
                          · next hinv =>
                              split at h
                              · next hal =>
                                  split at h
                                  · exact absurd h (by simp)
                                  · next st2 evs2 hrec =>
                                      cases h
                                      obtain ⟨h1, h2⟩ := ih _ _ _ hrec
                                      have hout : isSuccessOutcomeEv
                                          (Ev.attemptOutcome authorized.phone_number attempt)
                                          = true := by
                                        simp [isSuccessOutcomeEv, hal]
                                      refine ⟨?_, ?_⟩
                                      · rw [h1]
                                        simp [List.countP_cons, List.countP_append,
                                          List.countP_nil, hinC, hout, eA, eC, eR]
                                        omega
                                      · simp only [List.all_cons, List.all_append, h2, hinF,
                                          Bool.and_true, Bool.true_and, Bool.and_eq_true]
                                        simp [isFinalizeEv]
                              · next hal =>
                                  split at h
                                  · exact absurd h (by simp)
                                  · next st2 evs2 hrec =>
                                      cases h
                                      obtain ⟨h1, h2⟩ := ih _ _ _ hrec
                                      have hout : isSuccessOutcomeEv
                                          (Ev.attemptOutcome authorized.phone_number attempt)
                                          = false := by
                                        simp only [isSuccessOutcomeEv]
                                        simp only [Bool.not_eq_true] at hadd hinv hal
                                        simp [hadd, hinv, hal]
                                      refine ⟨?_, ?_⟩
                                      · rw [h1]
                                        simp [List.countP_cons, List.countP_append,
                                          List.countP_nil, hinC, hout, eA, eC, eR]
                                      · simp only [List.all_cons, List.all_append, h2, hinF,
                                          Bool.and_true, Bool.true_and, Bool.and_eq_true]
                                        simp [isFinalizeEv]

theorem no_finalize_not_mem (evs : List Ev) (rid : Int)
    (h : evs.all (fun e => !isFinalizeEv e) = true) :
    Ev.registerFulfilled rid ∉ evs ∧ Ev.registerAttempt rid ∉ evs := by
  rw [List.all_eq_true] at h
  constructor <;> intro hm <;> simpa [isFinalizeEv] using h _ hm

theorem finalize_fulfilled_case (evsB : List Ev) (rid : Int)
    (hBany : evsB.any isSuccessOutcomeEv = true)
    (hBnf : evsB.all (fun e => !isFinalizeEv e) = true) :
    (Ev.registerFulfilled rid ∈ evsB ++ [Ev.registerFulfilled rid] ↔
      (evsB ++ [Ev.registerFulfilled rid]).any isSuccessOutcomeEv = true) ∧
    (Ev.registerAttempt rid ∈ evsB ++ [Ev.registerFulfilled rid] ↔
      (evsB ++ [Ev.registerFulfilled rid]).any isSuccessOutcomeEv = false) := by
  have hnf := no_finalize_not_mem evsB rid hBnf
  have hany : (evsB ++ [Ev.registerFulfilled rid]).any isSuccessOutcomeEv = true := by
    simp [List.any_append, hBany]
  constructor
  · rw [hany]
    simp
  · rw [hany]
    constructor
    · intro hm
      exfalso
      rcases List.mem_append.mp hm with hx | hx
      · exact hnf.2 hx
      · simp at hx
    · intro hf
      cases hf
theorem finalize_attempt_case (evsB extra : List Ev) (rid : Int)
    (hBany : evsB.any isSuccessOutcomeEv = false)
    (hBnf : evsB.all (fun e => !isFinalizeEv e) = true)
    (hextraS : extra.any isSuccessOutcomeEv = false)
    (hextraF : Ev.registerFulfilled rid ∉ extra)
    (hextraA : Ev.registerAttempt rid ∈ extra) :
    (Ev.registerFulfilled rid ∈ evsB ++ extra ↔
      (evsB ++ extra).any isSuccessOutcomeEv = true) ∧
    (Ev.registerAttempt rid ∈ evsB ++ extra ↔
      (evsB ++ extra).any isSuccessOutcomeEv = false) := by
  have hnf := no_finalize_not_mem evsB rid hBnf
  have hany : (evsB ++ extra).any isSuccessOutcomeEv = false := by
    simp [List.any_append, hBany, hextraS]
  constructor
  · rw [hany]
    constructor
    · intro hm
      exfalso
      rcases List.mem_append.mp hm with hx | hx
      · exact hnf.1 hx
      · exact hextraF hx
    · intro hf
      cases hf
  · rw [hany]
    simp only [iff_true]
    exact List.mem_append.mpr (Or.inr hextraA)

/-- **C1.** For an Add work item that is processed to completion (roster
fetched, bot is admin, phone list non-empty), both snapshots of
`processAddQueue` register the request as fulfilled exactly when some
phone's attempt settled with `added`, `invited` or `already_member`, and
register an attempt exactly otherwise. -/
theorem processAddQueue_fulfilled_iff
    (env : AddFlowEnv) (worker : Worker) (item : AddQueueItem)
    (m : GroupMetadata) (gj : String)
    (hgj : asGroupJid item.group_id = .ok gj)
    (hmeta : env.meta = .ok m)
    (hne : env.memberPhones ≠ []) :
    (∀ res evs, checkIfSelfIsAdminV1 env.selfId m = true →
      processAddQueueV1 env worker item = .ok (res, evs) →
      ((Ev.registerFulfilled item.request_id ∈ evs ↔ evs.any isSuccessOutcomeEv = true) ∧
       (Ev.registerAttempt item.request_id ∈ evs ↔ evs.any isSuccessOutcomeEv = false))) ∧
    (∀ res evs, checkIfSelfIsAdminV2 env.selfId env.selfAlt m = true →
      processAddQueueV2 env worker item = .ok (res, evs) →
      ((Ev.registerFulfilled item.request_id ∈ evs ↔ evs.any isSuccessOutcomeEv = true) ∧
       (Ev.registerAttempt item.request_id ∈ evs ↔ evs.any isSuccessOutcomeEv = false))) := by
  have hie : env.memberPhones.isEmpty = false := by
    cases henv : env.memberPhones with
    | nil => exact absurd henv hne
    | cons a l => rfl
  constructor
  · intro res evs hadm hrun
    unfold processAddQueueV1 at hrun
    rw [hgj, hmeta] at hrun
    simp only [hadm, Bool.not_true, Bool.false_eq_true, if_false, hie, ite_false] at hrun
    split at hrun
    · exact absurd hrun (by simp)
    · next stL evsL heqLoop =>
        obtain ⟨h1, h2, h3⟩ := addLoopV1_spec env item gj m worker.id _ _ _ _ heqLoop
        have h0 : successFlags stL.results = evsL.any isSuccessOutcomeEv := by
          simpa [successFlags] using h1
        cases hA : stL.anyAuthorized
        all_goals simp only [hA, Bool.not_true, Bool.not_false, Bool.false_eq_true,
          if_false, if_true] at hrun
        -- anyAuthorized = false: a notification is appended to the loop trace
        · have hBany : (evsL ++ [Ev.notifyFailure item.request_id]).any isSuccessOutcomeEv
              = evsL.any isSuccessOutcomeEv := by
            simp [List.any_append, isSuccessOutcomeEv]
          have hBnf : ((evsL ++ [Ev.notifyFailure item.request_id]).all
              (fun e => !isFinalizeEv e)) = true := by
            simp only [List.all_append, h2, Bool.true_and]
            rfl
          split at hrun
          · next hcond =>
              cases hrun
              have hanyL : evsL.any isSuccessOutcomeEv = true := by
                rw [← h0]
                simp only [successFlags]
                simpa using hcond
              exact finalize_fulfilled_case _ item.request_id
                (hBany.trans hanyL) hBnf
          · next hcond =>
              cases hrun
              have hanyL : evsL.any isSuccessOutcomeEv = false := by
                rw [← h0]
                simp only [successFlags]
                rw [Bool.eq_false_iff]
                intro hx
                exact hcond (by simpa using hx)
              exact finalize_attempt_case _ [Ev.registerAttempt item.request_id]
                item.request_id (hBany.trans hanyL) hBnf (by simp [isSuccessOutcomeEv])
                (by simp) (by simp)
        -- anyAuthorized = true: the loop trace is used as-is
        · split at hrun
          · next hcond =>
              cases hrun
              have hanyL : evsL.any isSuccessOutcomeEv = true := by
                rw [← h0]
                simp only [successFlags]
                simpa using hcond
              exact finalize_fulfilled_case _ item.request_id hanyL h2
          · next hcond =>
              cases hrun
              have hanyL : evsL.any isSuccessOutcomeEv = false := by
                rw [← h0]
                simp only [successFlags]
                rw [Bool.eq_false_iff]
                intro hx
                exact hcond (by simpa using hx)
              exact finalize_attempt_case _ [Ev.registerAttempt item.request_id]
                item.request_id hanyL h2 (by simp [isSuccessOutcomeEv])
                (by simp) (by simp)
  · intro res evs hadm hrun
    unfold processAddQueueV2 at hrun
    rw [hgj, hmeta] at hrun
    simp only [hadm, Bool.not_true, Bool.false_eq_true, if_false, hie, ite_false] at hrun
    split at hrun
    · exact absurd hrun (by simp)
    · next stL evsL heqLoop =>
        obtain ⟨h1, h2⟩ := addLoopV2_spec env item gj m worker.id _ _ _ _ heqLoop
        simp only [Nat.zero_add] at h1
        split at hrun
        · next hcond =>
            cases hrun
            have hanyL : evsL.any isSuccessOutcomeEv = true := by
              rw [h1] at hcond
              rw [List.any_eq_true]
              obtain ⟨a, ha, hpa⟩ := List.countP_pos.mp hcond
              exact ⟨a, ha, hpa⟩
            exact finalize_fulfilled_case _ item.request_id hanyL h2
        · next hcond =>
            cases hrun
            have hanyL : evsL.any isSuccessOutcomeEv = false := by
              rw [h1] at hcond
              have hz : evsL.countP isSuccessOutcomeEv = 0 := by omega
              rw [List.any_eq_false]
              exact List.countP_eq_zero.mp hz
            exact finalize_attempt_case _
              [Ev.registerAttempt item.request_id, Ev.notifyFailure item.request_id]
              item.request_id hanyL h2 (by simp [isSuccessOutcomeEv])
              (by simp) (by simp)

/-- Witness for C1: on a concrete run of snapshot 2 in which both phone
attempts settle with 200, the fulfilled registration is in the trace
(obtained from the iff through the recorded successful outcomes). -/
theorem processAddQueue_fulfilled_iff_witness :
    Ev.registerFulfilled 42 ∈
      [Ev.authLookup "99998888" 7, Ev.addCall "5511999998888",
       Ev.updateCall "g1@g.us" "5511999998888@s.whatsapp.net" "add",
       Ev.attemptOutcome "5511999998888" ⟨true, false, false⟩,
       Ev.recordEntry "900" "5511999998888" "g1@g.us",
       Ev.authLookup "99998888" 7, Ev.addCall "5511999998888",
       Ev.updateCall "g1@g.us" "5511999998888@s.whatsapp.net" "add",
       Ev.attemptOutcome "5511999998888" ⟨true, false, false⟩,
       Ev.recordEntry "900" "11999998888" "g1@g.us",
       Ev.registerFulfilled 42] :=
  ((processAddQueue_fulfilled_iff addEnvDup workerFx itemFx metaAdmin "g1@g.us"
      rfl rfl (by decide)).2 ⟨true, false, false, 2, 2⟩ _ (by decide) rfl).1.mpr
    (by decide)

-- ---------------------------------------------------------------------------
-- C5: dedup by last-8 — corrected (snapshot 2 has no dedup)
-- ---------------------------------------------------------------------------

theorem dedupByLast8Aux_spec (l : List MemberPhone) : ∀ seen,
    (dedupByLast8Aux seen l).Pairwise (fun a b => phoneKey a ≠ phoneKey b) ∧
    (∀ x ∈ dedupByLast8Aux seen l, ∃ k, phoneKey x = some k ∧ k ∉ seen) := by
  induction l with
  | nil =>
      intro seen
      exact ⟨List.Pairwise.nil, by intro x hx; cases hx⟩
  | cons mph rest ih =>
      intro seen
      rw [dedupByLast8Aux]
      cases hk : phoneKey mph with
      | none => exact ih seen
      | some k =>
          by_cases hs : k ∈ seen
          · simp only [hs, if_true]
            exact ih seen
          · simp only [hs, if_false]
            obtain ⟨ihp, ihe⟩ := ih (k :: seen)
            constructor
            · refine List.pairwise_cons.mpr ⟨?_, ihp⟩
              intro b hb
              obtain ⟨kb, hkb, hkbs⟩ := ihe b hb
              rw [hk, hkb]
              intro hcontra
              apply hkbs
              rw [← Option.some.injEq k kb |>.mp hcontra]
              exact List.mem_cons_self k seen
            · intro x hx
              rcases List.mem_cons.mp hx with rfl | hx
              · exact ⟨k, hk, hs⟩
              · obtain ⟨kb, hkb, hkbs⟩ := ihe x hx
                exact ⟨kb, hkb, fun hbs => hkbs (List.mem_cons_of_mem k hbs)⟩

theorem dedupByLast8Aux_sublist (l : List MemberPhone) :
    ∀ seen, List.Sublist (dedupByLast8Aux seen l) l := by
  induction l with
  | nil => intro seen; exact List.Sublist.refl []
  | cons mph rest ih =>
      intro seen
      rw [dedupByLast8Aux]
      cases hk : phoneKey mph with
      | none => exact (ih seen).cons mph
      | some k =>
          by_cases hs : k ∈ seen
          · simp only [hs, if_true]
            exact (ih seen).cons mph
          · simp only [hs, if_false]
            exact (ih (k :: seen)).cons₂ mph

theorem dedupByLast8Aux_first (l : List MemberPhone) :
    ∀ seen x k, x ∈ dedupByLast8Aux seen l → phoneKey x = some k →
      k ∉ seen ∧ l.find? (fun y => decide (phoneKey y = some k)) = some x := by
  induction l with
  | nil => intro seen x k hx; cases hx
  | cons mph rest ih =>
      intro seen x k hx hxk
      rw [dedupByLast8Aux] at hx
      cases hk : phoneKey mph with
      | none =>
          simp only [hk] at hx
          obtain ⟨hns, hfind⟩ := ih seen x k hx hxk
          refine ⟨hns, ?_⟩
          rw [List.find?_cons_of_neg, hfind]
          simp [hk]
      | some km =>
          simp only [hk] at hx
          by_cases hs : km ∈ seen
          · rw [if_pos hs] at hx
            obtain ⟨hns, hfind⟩ := ih seen x k hx hxk
            refine ⟨hns, ?_⟩
            rw [List.find?_cons_of_neg, hfind]
            simp only [hk, decide_eq_true_eq, Option.some.injEq]
            intro hkm
            exact hns (hkm ▸ hs)
          · rw [if_neg hs] at hx
            rcases List.mem_cons.mp hx with rfl | hx
            · have hkm : km = k := by
                rw [hk] at hxk
                exact Option.some.injEq km k |>.mp hxk
              subst hkm
              refine ⟨hs, ?_⟩
              rw [List.find?_cons_of_pos]
              simp [hk]
            · obtain ⟨hns, hfind⟩ := ih (km :: seen) x k hx hxk
              have hkkm : k ≠ km := fun he => hns (he ▸ List.mem_cons_self km seen)
              refine ⟨fun hse => hns (List.mem_cons_of_mem km hse), ?_⟩
              rw [List.find?_cons_of_neg, hfind]
              simp only [hk, decide_eq_true_eq, Option.some.injEq]
              exact fun he => hkkm he.symm

theorem countP_le_one_of_pairwise (l : List MemberPhone)
    (h : l.Pairwise (fun a b => phoneKey a ≠ phoneKey b)) (k : String) :
    l.countP (fun x => decide (phoneKey x = some k)) ≤ 1 := by
  induction l with
  | nil => simp
  | cons a rest ih =>
      rw [List.countP_cons]
      rcases List.pairwise_cons.mp h with ⟨ha, hrest⟩
      by_cases hak : phoneKey a = some k
      · have hz : rest.countP (fun x => decide (phoneKey x = some k)) = 0 := by
          rw [List.countP_eq_zero]
          intro b hb
          have hne := ha b hb
          simp only [decide_eq_true_eq]
          intro hbk
          exact hne (hak.trans hbk.symm)
        simp [hz, hak]
      · have := ih hrest
        simp only [hak, decide_eq_true_eq]
        simp [hak]
        omega

/-- **C5 (amended).** Snapshot 1 of `processAddQueue` de-duplicates the phone
list by normalized last-8 digits before the per-phone loop — the deduped
list is a sublist of the input with pairwise-distinct keys that keeps the
first occurrence of every key — so each last-8 key is looked up (and hence
attempted) at most once per run.  Snapshot 2 iterates the raw list and can
attempt two entries sharing the same last 8 digits (see counterexample). -/
theorem processAddQueueV1_dedup_last8 :
    (∀ l : List MemberPhone,
      (dedupByLast8 l).Pairwise (fun a b => phoneKey a ≠ phoneKey b) ∧
      List.Sublist (dedupByLast8 l) l ∧
      (∀ x k, x ∈ dedupByLast8 l → phoneKey x = some k →
        l.find? (fun y => decide (phoneKey y = some k)) = some x)) ∧
    (∀ (env : AddFlowEnv) (worker : Worker) (item : AddQueueItem) res evs,
      processAddQueueV1 env worker item = .ok (res, evs) →
      ∀ k, evs.countP (isAuthLookupEv k) ≤ 1) := by
  constructor
  · intro l
    refine ⟨(dedupByLast8Aux_spec l []).1, dedupByLast8Aux_sublist l [], ?_⟩
    intro x k hx hxk
    exact (dedupByLast8Aux_first l [] x k hx hxk).2
  · intro env worker item res evs hrun k
    unfold processAddQueueV1 at hrun
    split at hrun
    · exact absurd hrun (by simp)
    · split at hrun
      · exact absurd hrun (by simp)
      · split at hrun
        · cases hrun
          simp [isAuthLookupEv]
        · split at hrun
          · cases hrun
            simp [isAuthLookupEv]
          · dsimp only at hrun
            split at hrun
            · exact absurd hrun (by simp)
            · next stL evsL heqLoop =>
                obtain ⟨h1, h2, h3⟩ :=
                  addLoopV1_spec env item _ _ worker.id _ _ _ _ heqLoop
                have hcnt : evsL.countP (isAuthLookupEv k) ≤ 1 :=
                  le_trans (h3 k)
                    (countP_le_one_of_pairwise _ (dedupByLast8Aux_spec _ []).1 k)
                cases hA : stL.anyAuthorized
                all_goals simp only [hA, Bool.not_true, Bool.not_false,
                  Bool.false_eq_true, if_false, if_true] at hrun
                · split at hrun
                  all_goals cases hrun
                  all_goals
                    simp only [List.countP_append, List.countP_cons, List.countP_nil,
                      isAuthLookupEv, Bool.false_eq_true, if_false]
                  all_goals omega
                · split at hrun
                  all_goals cases hrun
                  all_goals
                    simp only [List.countP_append, List.countP_cons, List.countP_nil,
                      isAuthLookupEv, Bool.false_eq_true, if_false]
                  all_goals omega

/-- Witness for C5: the duplicate-phone run of snapshot 1 performs a single
authorization lookup for the shared key. -/
theorem processAddQueueV1_dedup_last8_witness :
    (processAddQueueV1 addEnvDup workerFx itemFx).map
        (fun x => x.2.countP (isAuthLookupEv "99998888")) = .ok 1 ∧
    [Ev.authLookup "99998888" 7, Ev.addCall "5511999998888",
     Ev.updateCall "g1@g.us" "5511999998888@s.whatsapp.net" "add",
     Ev.attemptOutcome "5511999998888" ⟨true, false, false⟩,
     Ev.recordEntry "900" "5511999998888" "g1@g.us",
     Ev.registerFulfilled 42].countP (isAuthLookupEv "99998888") ≤ 1 :=
  ⟨rfl,
   processAddQueueV1_dedup_last8.2 addEnvDup workerFx itemFx
     ⟨true, false, false, 1, 1⟩ _ rfl "99998888"⟩

/-- Counterexample for C5 as stated: snapshot 2 performs no de-duplication —
two member phones sharing the last 8 digits are both attempted against the
group (two `addMemberToGroup` calls for the same authorized number). -/
theorem processAddQueueV2_dedup_counterexample :
    (processAddQueueV2 addEnvDup workerFx itemFx).map
      (fun x => x.2.countP (isAddCallEv "5511999998888")) = .ok 2 := rfl
